import Mathlib

/-!
Verification of the eval_tools repository's run-time evaluation components.

This file shallowly embeds, in Lean, the parts of the Python source that the
frozen claims are about:

* `app/utils/json_repair.py`   (`JsonRepair`)
* `app/utils/templater.py`     (`TemplateRenderer`)
* `app/utils/llm_client.py`    (the 200-response content extraction)
* `app/evaluators/exact_match.py` and `app/evaluators/json_compare.py`
* `app/services/eval_service.py` (`run_evaluation_with_ws`: the per-case
  worker, the concurrency clamp, the order-preserving result consumer, the
  summary counters; and `_run_evaluation`, the sequential SSE path)

Python JSON values are modelled by the inductive `Json`; Python's
`json.loads` is modelled by the executable parser `json_loads`; fallible
Python code is modelled with `Option`/`Except`.  Machine-level details that
the claims do not touch (float formatting, Python `repr` escaping, built-in
attributes of primitive objects) are approximated where noted in the
individual doc comments.
-/

/-- A single character constant: left curly brace. -/
def lbraceC : Char := Char.ofNat 123

/-- A single character constant: right curly brace. -/
def rbraceC : Char := Char.ofNat 125

/-- A single character constant: backtick. -/
def btickC : Char := Char.ofNat 96

/-- A single character constant: single quote (apostrophe). -/
def squoteC : Char := Char.ofNat 39

/-- A single character constant: double quote. -/
def dquoteC : Char := Char.ofNat 34

/-- Model of a Python value produced by `json.loads` (plus the two float
specials Python's parser accepts: `NaN` and signed `Infinity`).  A number is
`num isFloat m e`, denoting m·10^e, with `isFloat` recording whether Python
would build a `float` (fraction or exponent present) instead of an `int`. -/
inductive Json where
  | null : Json
  | bool : Bool → Json
  | num : Bool → Int → Int → Json
  | str : String → Json
  | arr : List Json → Json
  | obj : List (String × Json) → Json
  | nan : Json
  | inf : Bool → Json
deriving Repr

/-- Lookup of a key in an object's field list (Python `dict` lookup /
`dict.get`; field lists are key-deduplicated at parse time). -/
def lookupField : List (String × Json) → String → Option Json
  | [], _ => none
  | (k, v) :: rest, key => if k = key then some v else lookupField rest key

/-- Python `dict[key] = value` on an insertion-ordered dict: an existing key
keeps its position and gets the new value, a new key is appended. -/
def insertField : List (String × Json) → String → Json → List (String × Json)
  | [], k, v => [(k, v)]
  | (k0, v0) :: rest, k, v =>
    if k0 = k then (k0, v) :: rest else (k0, v0) :: insertField rest k v

/-- Whether a `Json` value is a Python `dict`. -/
def Json.isObj : Json → Bool
  | .obj _ => true
  | _ => false

/-- Python `dict.get(key)` on a `Json` value: `none` when the key is missing
or the value is not a dict (the claims only apply it to dicts). -/
def pyGet (v : Json) (key : String) : Option Json :=
  match v with
  | .obj fields => lookupField fields key
  | _ => none

/-- Python `"key" in data` membership test on a dict. -/
def pyHasKey (v : Json) (key : String) : Bool :=
  (pyGet v key).isSome

/-- Python truthiness (`bool(x)`) of a JSON-like value.  `float("nan")` and
infinities are truthy in Python. -/
def pyTruthy : Json → Bool
  | .null => false
  | .bool b => b
  | .num _ m _ => m != 0
  | .str s => s != ""
  | .arr xs => !xs.isEmpty
  | .obj fs => !fs.isEmpty
  | .nan => true
  | .inf _ => true

/-- Rendering of a number for `str()` / `repr()`.  Integers match Python
exactly; float formatting (shortest round-trip repr) is approximated by a
mantissa/exponent form, which no claim inspects. -/
def numRepr (isFloat : Bool) (m e : Int) : String :=
  if isFloat then toString m ++ "e" ++ toString e else toString m

mutual

/-- Python `repr()` of a JSON-like value (used by `str()` on dicts and
lists).  String quoting/escaping is approximated by plain single quotes;
no claim inspects the exact repr text. -/
def pyRepr : Json → String
  | .null => "None"
  | .bool b => if b then "True" else "False"
  | .num f m e => numRepr f m e
  | .str s => String.singleton squoteC ++ s ++ String.singleton squoteC
  | .arr xs => "[" ++ pyReprList xs ++ "]"
  | .obj fs => String.singleton lbraceC ++ pyReprFields fs ++ String.singleton rbraceC
  | .nan => "nan"
  | .inf neg => if neg then "-inf" else "inf"

/-- Comma-joined reprs of list elements. -/
def pyReprList : List Json → String
  | [] => ""
  | [x] => pyRepr x
  | x :: xs => pyRepr x ++ ", " ++ pyReprList xs

/-- Comma-joined reprs of dict entries. -/
def pyReprFields : List (String × Json) → String
  | [] => ""
  | [(k, v)] => String.singleton squoteC ++ k ++ String.singleton squoteC ++ ": " ++ pyRepr v
  | (k, v) :: fs =>
    String.singleton squoteC ++ k ++ String.singleton squoteC ++ ": " ++ pyRepr v
      ++ ", " ++ pyReprFields fs

end

/-- Python `str()` of a JSON-like value. -/
def pyStr : Json → String
  | .str s => s
  | v => pyRepr v

/-- JSON escaping of one character for `json.dumps` output
(`ensure_ascii=False`, so characters above the control range pass through;
the `\uXXXX` fallback for other control characters is approximated since no
claim inspects it). -/
def jsonEscapeChar (c : Char) : String :=
  if c = dquoteC then "\\" ++ String.singleton dquoteC
  else if c = '\\' then "\\\\"
  else if c = '\n' then "\\n"
  else if c = '\t' then "\\t"
  else if c = '\r' then "\\r"
  else if c.toNat < 32 then "\\u" ++ toString c.toNat
  else String.singleton c

/-- JSON string literal rendering for `json.dumps`. -/
def jsonEscape (s : String) : String :=
  String.singleton dquoteC ++ String.join (s.data.map jsonEscapeChar) ++ String.singleton dquoteC

mutual

/-- Model of Python `json.dumps(value, ensure_ascii=False)` with the default
separators `", "` and `": "`.  Float formatting is approximated as in
`numRepr`; no claim inspects dumped float text. -/
def json_dumps : Json → String
  | .null => "null"
  | .bool b => if b then "true" else "false"
  | .num f m e => numRepr f m e
  | .str s => jsonEscape s
  | .arr xs => "[" ++ jsonDumpsList xs ++ "]"
  | .obj fs => String.singleton lbraceC ++ jsonDumpsFields fs ++ String.singleton rbraceC
  | .nan => "NaN"
  | .inf neg => if neg then "-Infinity" else "Infinity"

/-- Comma-joined dumps of array elements. -/
def jsonDumpsList : List Json → String
  | [] => ""
  | [x] => json_dumps x
  | x :: xs => json_dumps x ++ ", " ++ jsonDumpsList xs

/-- Comma-joined dumps of object entries. -/
def jsonDumpsFields : List (String × Json) → String
  | [] => ""
  | [(k, v)] => jsonEscape k ++ ": " ++ json_dumps v
  | (k, v) :: fs => jsonEscape k ++ ": " ++ json_dumps v ++ ", " ++ jsonDumpsFields fs

end

/-- JSON whitespace accepted by Python's `json.loads` scanner. -/
def isJsonWs (c : Char) : Bool :=
  c = ' ' || c = '\t' || c = '\n' || c = '\r'

/-- Drop leading JSON whitespace. -/
def skipWs : List Char → List Char
  | [] => []
  | c :: cs => if isJsonWs c then skipWs cs else c :: cs

/-- Split off the longest prefix of decimal digits. -/
def spanDigits : List Char → (List Char × List Char)
  | [] => ([], [])
  | c :: cs =>
    if c.isDigit then
      let (ds, rest) := spanDigits cs
      (c :: ds, rest)
    else ([], c :: cs)

/-- Value of a decimal digit string. -/
def digitsToNat (ds : List Char) : Nat :=
  ds.foldl (fun a c => a * 10 + (c.toNat - 48)) 0

/-- Hex digit value, if `c` is a hex digit. -/
def hexDigit (c : Char) : Option Nat :=
  if c.isDigit then some (c.toNat - 48)
  else if 'a' ≤ c && c ≤ 'f' then some (c.toNat - 97 + 10)
  else if 'A' ≤ c && c ≤ 'F' then some (c.toNat - 65 + 10)
  else none

/-- Parse exactly four hex digits (the `\uXXXX` escape payload). -/
def parseHex4 : List Char → Option (Nat × List Char)
  | a :: b :: c :: d :: rest =>
    match hexDigit a, hexDigit b, hexDigit c, hexDigit d with
    | some x, some y, some z, some w => some (((x * 16 + y) * 16 + z) * 16 + w, rest)
    | _, _, _, _ => none
  | _ => none

/-- If `tag` is a prefix of `cs`, return the remainder after it. -/
def dropTag : List Char → List Char → Option (List Char)
  | [], cs => some cs
  | _, [] => none
  | t :: ts, c :: cs => if c = t then dropTag ts cs else none

/-- Body of a JSON string literal, starting after the opening quote, in
Python's strict mode: raw control characters are rejected, the escapes are
`\" \\ \/ \b \f \n \r \t \uXXXX`, and valid surrogate pairs are combined.
A lone surrogate, which Python keeps in the `str`, has no Lean `Char`
counterpart and is approximated by `Char.ofNat`'s fallback; no claim
touches such strings.  Returns the content and the remainder after the
closing quote. -/
def parseStringBody : Nat → List Char → Option (List Char × List Char)
  | 0, _ => none
  | _, [] => none
  | fuel + 1, c :: rest =>
    if c = dquoteC then some ([], rest)
    else if c = '\\' then
      match rest with
      | [] => none
      | e :: rest2 =>
        let simple : Option Char :=
          if e = dquoteC then some dquoteC
          else if e = '\\' then some '\\'
          else if e = '/' then some '/'
          else if e = 'b' then some (Char.ofNat 8)
          else if e = 'f' then some (Char.ofNat 12)
          else if e = 'n' then some '\n'
          else if e = 'r' then some '\r'
          else if e = 't' then some '\t'
          else none
        match simple with
        | some ch =>
          match parseStringBody fuel rest2 with
          | some (content, r) => some (ch :: content, r)
          | none => none
        | none =>
          if e = 'u' then
            match parseHex4 rest2 with
            | some (hi, r1) =>
              if 0xD800 ≤ hi && hi ≤ 0xDBFF then
                match r1 with
                | u1 :: u2 :: r2 =>
                  if u1 = '\\' && u2 = 'u' then
                    match parseHex4 r2 with
                    | some (lo, r3) =>
                      if 0xDC00 ≤ lo && lo ≤ 0xDFFF then
                        let code := 0x10000 + (hi - 0xD800) * 0x400 + (lo - 0xDC00)
                        match parseStringBody fuel r3 with
                        | some (content, r) => some (Char.ofNat code :: content, r)
                        | none => none
                      else
                        match parseStringBody fuel r1 with
                        | some (content, r) => some (Char.ofNat hi :: content, r)
                        | none => none
                    | none =>
                      match parseStringBody fuel r1 with
                      | some (content, r) => some (Char.ofNat hi :: content, r)
                      | none => none
                  else
                    match parseStringBody fuel r1 with
                    | some (content, r) => some (Char.ofNat hi :: content, r)
                    | none => none
                | _ =>
                  match parseStringBody fuel r1 with
                  | some (content, r) => some (Char.ofNat hi :: content, r)
                  | none => none
              else
                match parseStringBody fuel r1 with
                | some (content, r) => some (Char.ofNat hi :: content, r)
                | none => none
            | none => none
          else none
    else if c.toNat < 32 then none
    else
      match parseStringBody fuel rest with
      | some (content, r) => some (c :: content, r)
      | none => none

/-- Parse a JSON number per Python's scanner regex
`(-?(?:0|[1-9]\d*))(\.\d+)?([eE][-+]?\d+)?` starting at `cs`; returns the
value and the remainder.  A failed fraction or exponent group is simply not
consumed, exactly as the regex backtracks. -/
def parseNumber (cs : List Char) : Option (Json × List Char) :=
  let negAndRest : Bool × List Char :=
    match cs with
    | c :: rest => if c = '-' then (true, rest) else (false, cs)
    | [] => (false, cs)
  let neg := negAndRest.1
  match negAndRest.2 with
  | [] => none
  | c :: rest =>
    let intPart : Option (List Char × List Char) :=
      if c = '0' then some (['0'], rest)
      else if c.isDigit then some (spanDigits (c :: rest))
      else none
    match intPart with
    | none => none
    | some (intDs, r1) =>
      let fracRes : List Char × List Char × Bool :=
        match r1 with
        | d :: r2 =>
          if d = '.' then
            let (ds, r3) := spanDigits r2
            if ds.isEmpty then ([], r1, false) else (ds, r3, true)
          else ([], r1, false)
        | [] => ([], r1, false)
      let fracDs := fracRes.1
      let r4 := fracRes.2.1
      let hasFrac := fracRes.2.2
      let expRes : Int × List Char × Bool :=
        match r4 with
        | e :: r5 =>
          if e = 'e' || e = 'E' then
            let signAndRest : Bool × List Char :=
              match r5 with
              | s :: r6 => if s = '-' then (true, r6) else if s = '+' then (false, r6) else (false, r5)
              | [] => (false, r5)
            let (ds, r7) := spanDigits signAndRest.2
            if ds.isEmpty then (0, r4, false)
            else (if signAndRest.1 then -(digitsToNat ds : Int) else (digitsToNat ds : Int), r7, true)
          else (0, r4, false)
        | [] => (0, r4, false)
      let expVal := expRes.1
      let r8 := expRes.2.1
      let hasExp := expRes.2.2
      let mantissa : Int := (digitsToNat (intDs ++ fracDs) : Int)
      let m : Int := if neg then -mantissa else mantissa
      let isFloat := hasFrac || hasExp
      let e : Int := expVal - (fracDs.length : Int)
      some (Json.num isFloat m (if isFloat then e else 0), r8)

mutual

/-- Parse one JSON value starting at `cs` (whitespace already skipped),
mirroring Python's `json` scanner: strings, objects, arrays, the literals
`null`/`true`/`false`, the float specials `NaN`/`Infinity`/`-Infinity`,
and numbers.  Fuel-indexed; every recursive call consumes at least one
character first, so `length + 1` fuel always suffices. -/
def parseValue : Nat → List Char → Option (Json × List Char)
  | 0, _ => none
  | _, [] => none
  | fuel + 1, c :: rest =>
    if c = dquoteC then
      match parseStringBody (rest.length + 1) rest with
      | some (content, r) => some (Json.str content.asString, r)
      | none => none
    else if c = lbraceC then
      match skipWs rest with
      | [] => none
      | c2 :: r2 =>
        if c2 = rbraceC then some (Json.obj [], r2)
        else parseMembers fuel (c2 :: r2) []
    else if c = '[' then
      match skipWs rest with
      | [] => none
      | c2 :: r2 =>
        if c2 = ']' then some (Json.arr [], r2)
        else parseElements fuel (c2 :: r2) []
    else
      match dropTag "null".data (c :: rest) with
      | some r => some (Json.null, r)
      | none =>
      match dropTag "true".data (c :: rest) with
      | some r => some (Json.bool true, r)
      | none =>
      match dropTag "false".data (c :: rest) with
      | some r => some (Json.bool false, r)
      | none =>
      match dropTag "NaN".data (c :: rest) with
      | some r => some (Json.nan, r)
      | none =>
      match dropTag "Infinity".data (c :: rest) with
      | some r => some (Json.inf false, r)
      | none =>
      match parseNumber (c :: rest) with
      | some res => some res
      | none =>
      match dropTag "-Infinity".data (c :: rest) with
      | some r => some (Json.inf true, r)
      | none => none

/-- Parse the members of an object, positioned at the start of a key
(whitespace skipped, not at a closing brace); accumulates into a
key-deduplicated field list as Python's `dict` construction does. -/
def parseMembers : Nat → List Char → List (String × Json) → Option (Json × List Char)
  | 0, _, _ => none
  | _, [], _ => none
  | fuel + 1, c :: rest, acc =>
    if c = dquoteC then
      match parseStringBody (rest.length + 1) rest with
      | some (key, r1) =>
        match skipWs r1 with
        | c2 :: r2 =>
          if c2 = ':' then
            match parseValue fuel (skipWs r2) with
            | some (v, r3) =>
              let acc2 := insertField acc key.asString v
              match skipWs r3 with
              | c3 :: r4 =>
                if c3 = ',' then
                  match skipWs r4 with
                  | [] => none
                  | cs5 => parseMembers fuel cs5 acc2
                else if c3 = rbraceC then some (Json.obj acc2, r4)
                else none
              | [] => none
            | none => none
          else none
        | [] => none
      | none => none
    else none

/-- Parse the elements of an array, positioned at the start of a value
(whitespace skipped, not at a closing bracket). -/
def parseElements : Nat → List Char → List Json → Option (Json × List Char)
  | 0, _, _ => none
  | _, [], _ => none
  | fuel + 1, cs, acc =>
    match parseValue fuel cs with
    | some (v, r1) =>
      let acc2 := acc ++ [v]
      match skipWs r1 with
      | c2 :: r2 =>
        if c2 = ',' then
          match skipWs r2 with
          | [] => none
          | cs3 => parseElements fuel cs3 acc2
        else if c2 = ']' then some (Json.arr acc2, r2)
        else none
      | [] => none
    | none => none

end

/-- Model of Python `json.loads` on a string: parse one value surrounded by
optional whitespace; anything left over is an error (`None` models the
raised `JSONDecodeError`). -/
def json_loads (s : String) : Option Json :=
  let cs := skipWs s.data
  match parseValue (cs.length + 1) cs with
  | some (v, rest) => if (skipWs rest).isEmpty then some v else none
  | none => none

/-- Python string whitespace (`str.split()` / `str.strip()` / regex `\s`),
restricted to the six ASCII whitespace characters; the Unicode extension is
irrelevant to the claims. -/
def isPyWs (c : Char) : Bool :=
  c = ' ' || c = '\t' || c = '\n' || c = '\r' || c = '\x0b' || c = '\x0c'

/-- Split off the longest prefix satisfying `p`. -/
def spanWhile (p : Char → Bool) : List Char → (List Char × List Char)
  | [] => ([], [])
  | c :: cs =>
    if p c then
      let (pre, rest) := spanWhile p cs
      (c :: pre, rest)
    else ([], c :: cs)

/-- Python `str.strip()`: drop leading and trailing whitespace. -/
def pyStrip (s : String) : String :=
  (((s.data.dropWhile isPyWs).reverse.dropWhile isPyWs).reverse).asString

/-- Python `str.split()` with no argument: split on whitespace runs,
discarding empty pieces.  Fuel-indexed (each step consumes at least one
character, so fuel equal to the length suffices). -/
def pySplitWsF : Nat → List Char → List (List Char)
  | 0, _ => []
  | _, [] => []
  | fuel + 1, c :: cs =>
    if isPyWs c then pySplitWsF fuel cs
    else
      let (word, rest) := spanWhile (fun d => !isPyWs d) (c :: cs)
      word :: pySplitWsF fuel rest

/-- Python `" ".join(s.split())`: collapse whitespace runs to single spaces
and trim the ends. -/
def normalizeWs (s : String) : String :=
  String.intercalate " " ((pySplitWsF s.data.length s.data).map List.asString)

/-- Wrap a string in single quotes (for the single-quoted fragments that
the Python f-strings place in evaluator reasons). -/
def sqQuote (s : String) : String :=
  String.singleton squoteC ++ s ++ String.singleton squoteC

/-- `ExactMatchEvaluator.evaluate` from `app/evaluators/exact_match.py`:
raw-emptiness checks first, then comparison after whitespace
normalization. -/
def exact_match_evaluate (expected actual : String) : Bool × String :=
  if expected = "" ∧ actual = "" then (true, "Both empty")
  else if expected = "" then (false, "Expected output is empty")
  else if actual = "" then (false, "Actual output is empty")
  else
    let expectedNormalized := normalizeWs expected
    let actualNormalized := normalizeWs actual
    if expectedNormalized = actualNormalized then (true, "Exact match")
    else (false, "Mismatch: expected " ++ sqQuote expected ++ ", got " ++ sqQuote actual)

/-- Split at the first occurrence of `target`: the part before it and the
part after it. -/
def breakAtChar (target : Char) : List Char → Option (List Char × List Char)
  | [] => none
  | c :: cs =>
    if c = target then some ([], cs)
    else
      match breakAtChar target cs with
      | some (pre, post) => some (c :: pre, post)
      | none => none

namespace JsonRepair

/-- Word character for the regex `\b` boundary and identifiers:
`[a-zA-Z0-9_]`. -/
def isWordChar (c : Char) : Bool :=
  c.isAlpha || c.isDigit || c = '_'

/-- First character of a regex identifier `[a-zA-Z_]`. -/
def isIdentStart (c : Char) : Bool :=
  c.isAlpha || c = '_'

/-- `re.sub(r',(\s*[}\]])', r'\1', s)`: drop a comma standing before
(whitespace and) a closing brace or bracket.  Left-to-right, non
overlapping, the replacement is not rescanned. -/
def subCommaWsClose : Nat → List Char → List Char
  | 0, cs => cs
  | _, [] => []
  | fuel + 1, c :: cs =>
    if c = ',' then
      let (ws, rest) := spanWhile isPyWs cs
      match rest with
      | b :: rest2 =>
        if b = rbraceC || b = ']' then ws ++ b :: subCommaWsClose fuel rest2
        else c :: subCommaWsClose fuel cs
      | [] => c :: subCommaWsClose fuel cs
    else c :: subCommaWsClose fuel cs

/-- `re.sub(r',\s*([}\]])', r'\1', s)`: drop a comma and the whitespace
before a closing brace or bracket. -/
def subCommaClose : Nat → List Char → List Char
  | 0, cs => cs
  | _, [] => []
  | fuel + 1, c :: cs =>
    if c = ',' then
      let (_, rest) := spanWhile isPyWs cs
      match rest with
      | b :: rest2 =>
        if b = rbraceC || b = ']' then b :: subCommaClose fuel rest2
        else c :: subCommaClose fuel cs
      | [] => c :: subCommaClose fuel cs
    else c :: subCommaClose fuel cs

/-- `re.sub(r'([}\]])\s*([{[])', r'\1,\2', s)`: insert a comma between a
closing and an opening delimiter, dropping the whitespace between them. -/
def subCloseOpen : Nat → List Char → List Char
  | 0, cs => cs
  | _, [] => []
  | fuel + 1, c :: cs =>
    if c = rbraceC || c = ']' then
      let (_, rest) := spanWhile isPyWs cs
      match rest with
      | b :: rest2 =>
        if b = lbraceC || b = '[' then c :: ',' :: b :: subCloseOpen fuel rest2
        else c :: subCloseOpen fuel cs
      | [] => c :: subCloseOpen fuel cs
    else c :: subCloseOpen fuel cs

/-- Remainder after the first newline, if any. -/
def dropThroughNewline : List Char → Option (List Char)
  | [] => none
  | c :: cs => if c = '\n' then some cs else dropThroughNewline cs

/-- `re.sub(r'//.*?\n', '', s)`: remove `//` line comments through the
newline (no match when no newline follows). -/
def subLineComments : Nat → List Char → List Char
  | 0, cs => cs
  | _, [] => []
  | fuel + 1, c :: cs =>
    match cs with
    | c2 :: _ =>
      if c = '/' && c2 = '/' then
        match dropThroughNewline cs with
        | some rest => subLineComments fuel rest
        | none => c :: subLineComments fuel cs
      else c :: subLineComments fuel cs
    | [] => [c]

/-- Remainder after the first `*/` reached without crossing a newline
(`.` does not match newlines without `re.DOTALL`). -/
def dropThroughBlockClose : List Char → Option (List Char)
  | '*' :: '/' :: rest => some rest
  | '\n' :: _ => none
  | [] => none
  | _ :: cs => dropThroughBlockClose cs

/-- `re.sub(r'/\*.*?\*/', '', s)`: remove single-line `/* ... */`
comments. -/
def subBlockComments : Nat → List Char → List Char
  | 0, cs => cs
  | _, [] => []
  | fuel + 1, c :: cs =>
    match cs with
    | c2 :: rest =>
      if c = '/' && c2 = '*' then
        match dropThroughBlockClose rest with
        | some rest2 => subBlockComments fuel rest2
        | none => c :: subBlockComments fuel cs
      else c :: subBlockComments fuel cs
    | [] => [c]

/-- `_fix_structural_issues` from `app/utils/json_repair.py`: the four
comma/comment regex substitutions applied in source order. -/
def fix_structural_issues (s : String) : String :=
  let s1 := subCommaWsClose s.data.length s.data
  let s2 := subCommaClose s1.length s1
  let s3 := subCloseOpen s2.length s2
  let s4 := subLineComments s3.length s3
  (subBlockComments s4.length s4).asString

/-- `re.sub(r'([{,]\s*)([a-zA-Z_][a-zA-Z0-9_]*)(\s*:)', r'\1"\2"\3', s)`:
wrap a bare object key in double quotes
(`_fix_quotes` from `app/utils/json_repair.py`). -/
def subBareKeys : Nat → List Char → List Char
  | 0, cs => cs
  | _, [] => []
  | fuel + 1, c :: cs =>
    if c = lbraceC || c = ',' then
      let (ws1, r1) := spanWhile isPyWs cs
      match r1 with
      | i0 :: _ =>
        if isIdentStart i0 then
          let (ident, r2) := spanWhile isWordChar r1
          let (ws2, r3) := spanWhile isPyWs r2
          match r3 with
          | t :: r4 =>
            if t = ':' then
              c :: ws1 ++ dquoteC :: ident ++ dquoteC :: ws2 ++ ':' :: subBareKeys fuel r4
            else c :: subBareKeys fuel cs
          | [] => c :: subBareKeys fuel cs
        else c :: subBareKeys fuel cs
      | [] => c :: subBareKeys fuel cs
    else c :: subBareKeys fuel cs

/-- `_fix_quotes` from `app/utils/json_repair.py`. -/
def fix_quotes (s : String) : String :=
  (subBareKeys s.data.length s.data).asString

/-- One `re.sub(r'\bWORD\b', repl, s)` pass for a fixed keyword: the match
must not touch a word character on either side; `prev` carries the
character before the current scan position. -/
def subWordToken (word repl : List Char) : Nat → Option Char → List Char → List Char
  | 0, _, cs => cs
  | _, _, [] => []
  | fuel + 1, prev, c :: cs =>
    let boundaryBefore : Bool :=
      match prev with
      | none => true
      | some p => !isWordChar p
    if boundaryBefore then
      match dropTag word (c :: cs) with
      | some rest =>
        let boundaryAfter : Bool :=
          match rest with
          | [] => true
          | r :: _ => !isWordChar r
        if boundaryAfter then repl ++ subWordToken word repl fuel (word.getLast?) rest
        else c :: subWordToken word repl fuel (some c) cs
      | none => c :: subWordToken word repl fuel (some c) cs
    else c :: subWordToken word repl fuel (some c) cs

/-- The character-by-character single-quote conversion loop of
`_fix_keywords_and_values`: tracks whether the cursor is inside a
double-quoted string (`inStr`) and the previous character (for the
backslash check), and rewrites a single-quoted run outside a string into a
double-quoted one. -/
def fixSingleQuotes : Nat → Option Char → Bool → List Char → List Char
  | 0, _, _, cs => cs
  | _, _, _, [] => []
  | fuel + 1, prev, inStr, c :: cs =>
    if c = dquoteC && prev ≠ some '\\' then
      c :: fixSingleQuotes fuel (some c) (!inStr) cs
    else if !inStr && c = squoteC then
      match breakAtChar squoteC cs with
      | some (content, after) =>
        dquoteC :: content ++ dquoteC :: fixSingleQuotes fuel (some squoteC) inStr after
      | none => c :: fixSingleQuotes fuel (some c) inStr cs
    else c :: fixSingleQuotes fuel (some c) inStr cs

/-- Lowercased copy of a character list. -/
def lowerChars (cs : List Char) : List Char :=
  cs.map Char.toLower

/-- `re.sub(r':\s*([a-zA-Z_][a-zA-Z0-9_]*)([,\s}])', lambda ..., s)`: after
a colon, wrap a bare single-word value in double quotes unless it is
(case-insensitively) `true`, `false` or `null`; the replacement puts a
single space after the colon. -/
def subBareValues : Nat → List Char → List Char
  | 0, cs => cs
  | _, [] => []
  | fuel + 1, c :: cs =>
    if c = ':' then
      let (_, r1) := spanWhile isPyWs cs
      match r1 with
      | i0 :: _ =>
        if isIdentStart i0 then
          let (ident, r2) := spanWhile isWordChar r1
          match r2 with
          | t :: r3 =>
            if t = ',' || isPyWs t || t = rbraceC then
              let lowered := (lowerChars ident).asString
              if lowered = "true" || lowered = "false" || lowered = "null" then
                ':' :: ' ' :: ident ++ t :: subBareValues fuel r3
              else
                ':' :: ' ' :: dquoteC :: ident ++ dquoteC :: t :: subBareValues fuel r3
            else c :: subBareValues fuel cs
          | [] => c :: subBareValues fuel cs
        else c :: subBareValues fuel cs
      | [] => c :: subBareValues fuel cs
    else c :: subBareValues fuel cs

/-- `_fix_keywords_and_values` from `app/utils/json_repair.py`: keyword
normalization (`None`/`TRUE`/`FALSE`), the single-quote conversion loop,
then bare single-word value quoting. -/
def fix_keywords_and_values (s : String) : String :=
  let s1 := subWordToken "None".data "null".data s.data.length none s.data
  let s2 := subWordToken "TRUE".data "true".data s1.length none s1
  let s3 := subWordToken "FALSE".data "false".data s2.length none s2
  let s4 := fixSingleQuotes s3.length none false s3
  (subBareValues s4.length s4).asString

/-- `re.sub(r'"\s*\n\s*"', '', s)`: remove a quote-whitespace-quote
artifact whose whitespace run contains a newline
(`_final_cleanup` from `app/utils/json_repair.py`). -/
def subQuoteNewlineQuote : Nat → List Char → List Char
  | 0, cs => cs
  | _, [] => []
  | fuel + 1, c :: cs =>
    if c = dquoteC then
      let (ws, rest) := spanWhile isPyWs cs
      match rest with
      | b :: rest2 =>
        if b = dquoteC && ws.contains '\n' then subQuoteNewlineQuote fuel rest2
        else c :: subQuoteNewlineQuote fuel cs
      | [] => c :: subQuoteNewlineQuote fuel cs
    else c :: subQuoteNewlineQuote fuel cs

/-- `_final_cleanup` from `app/utils/json_repair.py`. -/
def final_cleanup (s : String) : String :=
  (subQuoteNewlineQuote s.data.length s.data).asString

/-- The control characters stripped by `_aggressive_repair`:
`[\x00-\x08\x0b-\x0c\x0e-\x1f\x7f-\x9f]`. -/
def isStrippedControl (c : Char) : Bool :=
  c.toNat ≤ 8 || c.toNat = 11 || c.toNat = 12 ||
    (14 ≤ c.toNat && c.toNat ≤ 31) || (127 ≤ c.toNat && c.toNat ≤ 159)

/-- `_aggressive_repair` from `app/utils/json_repair.py`: strip control
characters and append the deficit of closing braces and brackets. -/
def aggressive_repair (s : String) : String :=
  let cs := s.data.filter (fun c => !isStrippedControl c)
  let openBraces := cs.count lbraceC
  let closeBraces := cs.count rbraceC
  let openBrackets := cs.count '['
  let closeBrackets := cs.count ']'
  let cs2 := cs ++ List.replicate (openBraces - closeBraces) rbraceC
  let cs3 := cs2 ++ List.replicate (openBrackets - closeBrackets) ']'
  cs3.asString

/-- Split at the first occurrence of the character-list `tag`: the part
before it and the part after it (`none` when `tag` does not occur). -/
def splitAtTag (tag : List Char) : List Char → Option (List Char × List Char)
  | [] =>
    match tag with
    | [] => some ([], [])
    | _ :: _ => none
  | c :: cs =>
    match dropTag tag (c :: cs) with
    | some rest => some ([], rest)
    | none =>
      match splitAtTag tag cs with
      | some (pre, post) => some (c :: pre, post)
      | none => none

/-- Case-insensitive `dropTag` (the `re.IGNORECASE` flag on the
markdown-fence pattern): `tag` is given lowercased. -/
def dropTagCI : List Char → List Char → Option (List Char)
  | [], cs => some cs
  | _, [] => none
  | t :: ts, c :: cs => if c.toLower = t then dropTagCI ts cs else none

/-- Case-insensitive `splitAtTag`. -/
def splitAtTagCI (tag : List Char) : List Char → Option (List Char × List Char)
  | [] =>
    match tag with
    | [] => some ([], [])
    | _ :: _ => none
  | c :: cs =>
    match dropTagCI tag (c :: cs) with
    | some rest => some ([], rest)
    | none =>
      match splitAtTagCI tag cs with
      | some (pre, post) => some (c :: pre, post)
      | none => none

/-- The three-backtick fence. -/
def fenceTag : List Char := [btickC, btickC, btickC]

/-- The fence opening of a ```` ```json ```` block (lowercased for the
case-insensitive match). -/
def fenceJsonTag : List Char := fenceTag ++ "json".data

/-- Trim Python-style whitespace from both ends of a character list. -/
def trimPyChars (cs : List Char) : List Char :=
  (cs.dropWhile isPyWs).reverse.dropWhile isPyWs |>.reverse

/-- `_extract_json_from_markdown` from `app/utils/json_repair.py`: take the
stripped content of the first ```` ```json ... ``` ```` block (matched
case-insensitively), else of the first ``` ``` ... ``` ``` block, else the
text unmodified.  The regex group plus the surrounding `\s*` and the final
`.strip()` together amount to trimming the text between the fences. -/
def extract_json_from_markdown (text : String) : String :=
  let cs := text.data
  let plain : String :=
    match splitAtTag fenceTag cs with
    | some (_, afterOpen) =>
      match splitAtTag fenceTag afterOpen with
      | some (inner, _) => (trimPyChars inner).asString
      | none => text
    | none => text
  match splitAtTagCI fenceJsonTag cs with
  | some (_, afterOpen) =>
    match splitAtTag fenceTag afterOpen with
    | some (inner, _) => (trimPyChars inner).asString
    | none => plain
  | none => plain

/-- `_is_valid_json` from `app/utils/json_repair.py`. -/
def is_valid_json (s : String) : Bool :=
  if s = "" then false else (json_loads s).isSome

/-- `JsonRepair.repair` from `app/utils/json_repair.py`: markdown-fence
extraction first, then the early return for already-valid JSON, then the
ordered repair passes, then the aggressive pass; `none` models repair
failure. -/
def repair (s : String) : Option String :=
  if s = "" then none
  else
    let s1 := extract_json_from_markdown s
    if is_valid_json s1 then some s1
    else
      let r1 := fix_structural_issues s1
      let r2 := fix_quotes r1
      let r3 := fix_keywords_and_values r2
      let r4 := final_cleanup r3
      if is_valid_json r4 then some r4
      else
        let r5 := aggressive_repair r4
        if is_valid_json r5 then some r5 else none

end JsonRepair

/-- Python `type(x).__name__` for parsed JSON values. -/
def pyTypeName : Json → String
  | .null => "NoneType"
  | .bool _ => "bool"
  | .num false _ _ => "int"
  | .num true _ _ => "float"
  | .str _ => "str"
  | .arr _ => "list"
  | .obj _ => "dict"
  | .nan => "float"
  | .inf _ => "float"

/-- Numeric equality of m1·10^e1 and m2·10^e2. -/
def numValEq (m1 e1 m2 e2 : Int) : Bool :=
  if e1 ≥ e2 then m1 * 10 ^ (e1 - e2).toNat == m2
  else m1 == m2 * 10 ^ (e2 - e1).toNat

/-- Python `==` on scalar JSON leaves of equal type (the only way
`_deep_compare` reaches its leaf comparison).  `float("nan")` is not equal
to itself in Python. -/
def leafEq : Json → Json → Bool
  | .null, .null => true
  | .bool a, .bool b => a == b
  | .num _ m1 e1, .num _ m2 e2 => numValEq m1 e1 m2 e2
  | .str a, .str b => a == b
  | .inf a, .inf b => a == b
  | _, _ => false

/-- The keys of `expected` missing from `actual`
(`expected_keys - actual_keys`).  Python iterates the difference in
unspecified set order; the model iterates in insertion order, which no
claim distinguishes. -/
def missingKeys (expected actual : List (String × Json)) : List String :=
  (expected.map Prod.fst).filter (fun k => (lookupField actual k).isNone)

/-- The keys shared by both objects, in the iteration order of the first. -/
def commonKeys (expected actual : List (String × Json)) : List String :=
  (expected.map Prod.fst).filter (fun k => (lookupField actual k).isSome)

mutual

/-- `_deep_compare` from `app/evaluators/json_compare.py`: type mismatch,
dict missing/extra/common keys, list length/element-wise, scalar value
mismatch; each difference is one message with a dotted/bracketed path.
Fuel-indexed: every recursive call consumes one fuel, and one fuel unit is
only ever spent against at least one character of the JSON text the values
were parsed from (a nesting level spends its brackets, a key or element its
separator), so fuel exceeding that text length never runs out (Python
recurses without bound up to its recursion limit). -/
def deepCompareF : Nat → Json → Json → String → List String
  | 0, _, _, _ => []
  | fuel + 1, expected, actual, path =>
    if pyTypeName expected ≠ pyTypeName actual then
      [path ++ ": Type mismatch - expected " ++ pyTypeName expected ++ ", got "
        ++ pyTypeName actual]
    else
      match expected, actual with
      | .obj efs, .obj afs =>
        let missing := (missingKeys efs afs).map
          (fun k => path ++ "." ++ k ++ ": Missing key")
        let extra := (missingKeys afs efs).map
          (fun k => path ++ "." ++ k ++ ": Extra key")
        missing ++ extra ++ deepCompareKeysF fuel efs afs path (commonKeys efs afs)
      | .arr exs, .arr axs =>
        if exs.length ≠ axs.length then
          [path ++ ": Length mismatch - expected " ++ toString exs.length ++ ", got "
            ++ toString axs.length]
        else deepCompareElemsF fuel exs axs path 0
      | e, a =>
        if leafEq e a then []
        else [path ++ ": Value mismatch - expected " ++ pyStr e ++ ", got " ++ pyStr a]

/-- Differences over the common keys of two objects, in order. -/
def deepCompareKeysF : Nat → List (String × Json) → List (String × Json) → String →
    List String → List String
  | 0, _, _, _, _ => []
  | _, _, _, _, [] => []
  | fuel + 1, efs, afs, path, k :: ks =>
    let sub :=
      match lookupField efs k, lookupField afs k with
      | some ev, some av =>
        deepCompareF fuel ev av (if path = "" then k else path ++ "." ++ k)
      | _, _ => []
    sub ++ deepCompareKeysF fuel efs afs path ks

/-- Index-wise differences of two equal-length arrays. -/
def deepCompareElemsF : Nat → List Json → List Json → String → Nat → List String
  | 0, _, _, _, _ => []
  | _, [], _, _, _ => []
  | _, _, [], _, _ => []
  | fuel + 1, e :: es, a :: as2, path, i =>
    deepCompareF fuel e a (path ++ "[" ++ toString i ++ "]")
      ++ deepCompareElemsF fuel es as2 path (i + 1)

end

/-- `_parse_json` from `app/evaluators/json_compare.py`: strip, direct
parse, then parse of the repaired text; returns the parsed value and the
string that parsed. -/
def json_compare_parse (text : String) : Option Json × Option String :=
  let t := pyStrip text
  if t = "" then (none, none)
  else
    match json_loads t with
    | some v => (some v, some t)
    | none =>
      match JsonRepair.repair t with
      | some rep =>
        if rep ≠ "" then
          match json_loads rep with
          | some v => (some v, some rep)
          | none => (none, none)
        else (none, none)
      | none => (none, none)

/-- `JsonCompareEvaluator.evaluate` from `app/evaluators/json_compare.py`. -/
def json_compare_evaluate (expected actual : String) : Bool × String :=
  if expected = "" then (true, "No expected JSON to compare")
  else
    match json_loads expected with
    | none => (true, "Expected output is not valid JSON, skipping JSON comparison")
    | some expectedObj =>
      let parsed := json_compare_parse actual
      match parsed.1 with
      | none => (false, "Actual output is not valid JSON (repair failed)")
      | some actualObj =>
        let repairNote :=
          match parsed.2 with
          | some r => if r ≠ "" && r ≠ actual then " (JSON was repaired)" else ""
          | none => ""
        let differences := deepCompareF (expected.length + 1) expectedObj actualObj ""
        if differences.isEmpty then (true, "JSON structures match" ++ repairNote)
        else (false, String.intercalate "; " (differences.take 5) ++ repairNote)

/-- Path navigation of `_resolve_variable` from `app/utils/templater.py`
(the loop over the dotted parts): a missing key or a `None` value at any
step yields the empty string; a non-dict intermediate value falls to the
`hasattr` branch, which for the JSON data values carried by the evaluation
context never finds a matching attribute, so the `else` returns the empty
string (built-in attributes of Python primitives are not modelled). -/
def resolve_navigate : List String → Json → String
  | [], v => pyStr v
  | p :: ps, v =>
    match v with
    | Json.obj fields =>
      match lookupField fields p with
      | none => ""
      | some Json.null => ""
      | some v2 => resolve_navigate ps v2
    | _ => ""

/-- Python `var_path.split(".")`: split a character list at every dot
(empty pieces included, as in Python). -/
def splitOnDot : List Char → List (List Char)
  | [] => [[]]
  | c :: cs =>
    if c = '.' then [] :: splitOnDot cs
    else
      match splitOnDot cs with
      | w :: ws => (c :: w) :: ws
      | [] => [[c]]

/-- `_resolve_variable` from `app/utils/templater.py`: the special-cased
top-level `model_name` goes through `str(context.get("model_name", ""))`,
every other path through the navigation loop over the dot-split parts. -/
def resolve_variable (varPath : String) (context : Json) : String :=
  if varPath = "model_name" then
    pyStr ((pyGet context "model_name").getD (Json.str ""))
  else resolve_navigate ((splitOnDot varPath.data).map List.asString) context

/-- Placeholder substitution in one string: scan for `${...}` occurrences
(regex `\$\{([^}]+)\}`: a dollar-brace, at least one non-brace character,
a closing brace); each placeholder is replaced by its resolved value, the
rest is literal text.  Resolved text is not rescanned, matching
`re.finditer` over the original string. -/
def substStringChars (context : Json) : Nat → List Char → List Char
  | 0, cs => cs
  | _, [] => []
  | fuel + 1, c :: cs =>
    if c = '$' then
      match cs with
      | b :: cs2 =>
        if b = lbraceC then
          match breakAtChar rbraceC cs2 with
          | some (content, after) =>
            if content.isEmpty then c :: substStringChars context fuel cs
            else (resolve_variable content.asString context).data
              ++ substStringChars context fuel after
          | none => c :: substStringChars context fuel cs
        else c :: substStringChars context fuel cs
      | [] => [c]
    else c :: substStringChars context fuel cs

/-- Placeholder substitution over a whole string. -/
def substituteString (context : Json) (s : String) : String :=
  (substStringChars context s.data.length s.data).asString

mutual

/-- `_substitute_in_value` from `app/utils/templater.py`: strings get
placeholder substitution, dicts and lists are rebuilt recursively, other
scalars pass through unchanged. -/
def substitute_in_value (context : Json) : Json → Json
  | .str s => .str (substituteString context s)
  | .obj fs => .obj (substFieldsTR context fs)
  | .arr xs => .arr (substListTR context xs)
  | v => v

/-- Substitution over list elements. -/
def substListTR (context : Json) : List Json → List Json
  | [] => []
  | x :: xs => substitute_in_value context x :: substListTR context xs

/-- Substitution over dict entries (values only, as in the source). -/
def substFieldsTR (context : Json) : List (String × Json) → List (String × Json)
  | [] => []
  | (k, v) :: fs => (k, substitute_in_value context v) :: substFieldsTR context fs

end

/-- `render_request_template` from `app/utils/templater.py`: raises
(`Except.error`) when the template is not a dict, substitutes, and checks
the result is still a dict. -/
def render_request_template (template context : Json) : Except String Json :=
  if !template.isObj then .error "Template must be a dictionary"
  else
    let rendered := substitute_in_value context template
    if !rendered.isObj then
      .error "Invalid template: result is not a dictionary after substitution"
    else .ok rendered

/-- The `elif`/`else` chain of `call_llm_with_stats`
(`app/utils/llm_client.py`), reached only when the `choices` branch was not
taken: the first present of `output`/`response`/`text`/`content` is
stringified; a `message` dict yields its `content` (or its own `str`); any
other `message` is stringified; with none of the keys the whole body is
JSON-dumped.  Every branch returns a string. -/
def llm_elif_chain (data : Json) : String :=
  if pyHasKey data "output" then pyStr ((pyGet data "output").getD (Json.str ""))
  else if pyHasKey data "response" then pyStr ((pyGet data "response").getD (Json.str ""))
  else if pyHasKey data "text" then pyStr ((pyGet data "text").getD (Json.str ""))
  else if pyHasKey data "content" then pyStr ((pyGet data "content").getD (Json.str ""))
  else if pyHasKey data "message" then
    let msg := (pyGet data "message").getD (Json.obj [])
    match msg with
    | Json.obj mfs =>
      match lookupField mfs "content" with
      | some v => pyStr v
      | none => pyStr msg
    | _ => pyStr msg
  else json_dumps data

/-- Content extraction from a 200-response dict in `call_llm_with_stats`
(`app/utils/llm_client.py` lines 127-196).  The `if choices and
len(choices) > 0` branch: a non-empty `choices` list commits to
`choices[0].message.content` and returns it only when truthy — otherwise
control falls past the whole `if`/`elif`/`else` chain to the function-end
`return None`.  A truthy non-list `choices`, a non-dict `choices[0]`, and a
truthy non-dict `message` all raise (`len()`/`[0]`/`.get` on the wrong
type), are swallowed by the blanket `except`, and the call returns `None`;
those exception paths are modelled as `none`. -/
def llm_extract_content (data : Json) : Option String :=
  match pyGet data "choices" with
  | some (Json.arr (c0 :: _)) =>
    match c0 with
    | Json.obj _ =>
      let message :=
        match pyGet c0 "message" with
        | some m => if pyTruthy m then m else Json.obj []
        | none => Json.obj []
      match message with
      | Json.obj mfs =>
        match lookupField mfs "content" with
        | some content => if pyTruthy content then some (pyStr content) else none
        | none => none
      | _ => none
    | _ => none
  | some v => if pyTruthy v then none else some (llm_elif_chain data)
  | none => some (llm_elif_chain data)

/-- The content result of a 200 response whose body parsed to `data`: a
non-dict body raises at the `data.get("usage", {})` line, is swallowed by
the blanket `except`, and the call returns `None`. -/
def llm_200_content (data : Json) : Option String :=
  match data with
  | Json.obj _ => llm_extract_content data
  | _ => none

/-- The concurrency clamp of `run_evaluation_with_ws`
(`app/services/eval_service.py` lines 418-421):
`concurrency = getattr(task, "concurrency", 1) or 1` (a missing/`None`
column and the falsy `0` both become `1`), then
`concurrency = max(1, min(concurrency, total))`. -/
def effective_concurrency (taskConcurrency : Option Int) (total : Nat) : Int :=
  let c : Int :=
    match taskConcurrency with
    | none => 1
    | some v => if v = 0 then 1 else v
  max 1 (min c (total : Int))

/-- The per-case payload a worker deposits into the result queue
(`evaluate_single_case` in `app/services/eval_service.py`): the fields of
the dict put on the queue, minus the case object itself.  Each
`evaluator_logs` entry is the value the code appends — the reason string
returned by the evaluator. -/
structure WorkerResult where
  actual_output : Option String
  is_passed : Bool
  execution_error : Option String
  evaluator_logs : List Json
deriving Repr

/-- `evaluate_single_case` from `app/services/eval_service.py` (lines
438-495), one case, after acquiring the semaphore.  The template is
rendered OUTSIDE any `try`, so a render failure propagates
(`Except.error`); only the `llm_client.call_llm` await is wrapped, its
exception becoming `execution_error`.  `llmOutcome` is the outcome of that
call: an exception message, or the returned `Optional[str]` (the client
itself returns `None` on swallowed HTTP failures).  On a present output the
hard-coded `ExactMatchEvaluator` runs against
`case.expected_output or ""` and its reason string is appended to the
logs; otherwise `is_passed` stays `False` with empty logs. -/
def evaluate_single_case (template context : Json) (expectedOutput : Option String)
    (llmOutcome : Except String (Option String)) : Except String WorkerResult :=
  match render_request_template template context with
  | .error e => .error e
  | .ok _rendered =>
    let callRes : Option String × Option String :=
      match llmOutcome with
      | .ok r => (r, none)
      | .error e => (none, some e)
    match callRes.1 with
    | some out =>
      let res := exact_match_evaluate (expectedOutput.getD "") out
      .ok ⟨some out, res.1, callRes.2, [Json.str res.2]⟩
    | none => .ok ⟨none, false, callRes.2, []⟩

/-- State of the ordering consumer of `run_evaluation_with_ws`
(`result_consumer`, `app/services/eval_service.py` lines 504-557):
`buffer` holds the indices that have arrived on the queue but are not yet
externalized (`results_buffer`), `next` is `next_expected_index`, and `out`
is the sequence of indices already persisted and broadcast, in
externalization order.  Since worker `i` always deposits `(i, payload_i)`,
tracking indices determines the payload streams. -/
structure ConsumerState where
  buffer : List Nat
  next : Nat
  out : List Nat
deriving Repr

/-- The inner `while next_expected_index in results_buffer` drain loop:
pop the next expected index, persist/broadcast it (append to `out`),
advance the cursor.  Fuel-indexed; one buffered index is removed per
iteration, so fuel at least the buffer length suffices. -/
def drainLoop : Nat → ConsumerState → ConsumerState
  | 0, s => s
  | fuel + 1, s =>
    if s.next ∈ s.buffer then
      drainLoop fuel ⟨s.buffer.erase s.next, s.next + 1, s.out ++ [s.next]⟩
    else s

/-- One iteration of the consumer's outer loop: receive `(index, payload)`
from the queue, buffer it, then drain consecutively. -/
def consume_arrival (s : ConsumerState) (i : Nat) : ConsumerState :=
  drainLoop (i :: s.buffer).length ⟨i :: s.buffer, s.next, s.out⟩

/-- `result_consumer` over a complete arrival sequence (the order in which
the concurrent workers managed to enqueue their indices), starting from
`next_expected_index = 1` and an empty buffer. -/
def result_consumer (arrivals : List Nat) : ConsumerState :=
  arrivals.foldl consume_arrival ⟨[], 1, []⟩

/-- The counter updates of `result_consumer`
(`app/services/eval_service.py` lines 550-554): exactly one of
`passed`/`failed` is incremented per externalized case.  The input is the
`is_passed` stream in externalization order; the result is
`(passed, failed)`. -/
def ws_run_counters (outcomes : List Bool) : Nat × Nat :=
  outcomes.foldl (fun pf b => if b then (pf.1 + 1, pf.2) else (pf.1, pf.2 + 1)) (0, 0)

/-- The counter updates of the sequential `_run_evaluation` SSE path
(`app/services/eval_service.py` lines 817-864).  Each case is
`(actual_output, expected_output or "")` with `actual_output = None` when
the LLM call failed.  A failed call hits `failed += 1` in the
`actual_output is None` branch (line 831) AND the unconditional
`if is_passed: ... else: failed += 1` after the result row (line 863),
so it is counted twice. -/
def sse_run_counters (cases : List (Option String × String)) : Nat × Nat :=
  cases.foldl
    (fun pf c =>
      match c.1 with
      | some out =>
        if (exact_match_evaluate c.2 out).1 then (pf.1 + 1, pf.2) else (pf.1, pf.2 + 1)
      | none => (pf.1, pf.2 + 2))
    (0, 0)

/-- The summary persisted by `_run_evaluation`:
`(total, passed, failed)` with `total = len(cases)`. -/
def sse_summary (cases : List (Option String × String)) : Nat × Nat × Nat :=
  (cases.length, (sse_run_counters cases).1, (sse_run_counters cases).2)

/-! ## Sanity checks of the embedded definitions on concrete inputs -/

example : json_loads "\x7b\"a\": 1\x7d" = some (Json.obj [("a", Json.num false 1 0)]) := by rfl
example : json_loads "[1,2,3" = none := by rfl
example : JsonRepair.repair "\x7b\"a\": 1,\x7d" = some "\x7b\"a\": 1\x7d" := by rfl
example : JsonRepair.repair "\x7b'a': 'x'\x7d" = some "\x7b\"a\": \"x\"\x7d" := by rfl
example : JsonRepair.repair "[1,2,3" = some "[1,2,3]" := by rfl
example : exact_match_evaluate "hello  world" "hello world" = (true, "Exact match") := by rfl
example : exact_match_evaluate "" "" = (true, "Both empty") := by rfl
example : (exact_match_evaluate "x" "").1 = false := by rfl
example : json_compare_evaluate "\x7b\"a\":1\x7d" "\x7b\"a\":1\x7d" =
    (true, "JSON structures match") := by rfl
example : json_compare_evaluate "\x7b\"a\":1\x7d" "\x7b\"a\":2\x7d" =
    (false, "a: Value mismatch - expected 1, got 2") := by rfl
example : json_compare_evaluate "\x7b\"a\":1,\"b\":2\x7d" "\x7b\"a\":1\x7d" =
    (false, ".b: Missing key") := by rfl
example : substituteString
    (Json.obj [("model_name", Json.str "gpt-4"),
      ("case", Json.obj [("user_input", Json.str "Hi")])])
    "$\x7bmodel_name\x7d says $\x7bcase.user_input\x7d" = "gpt-4 says Hi" := by rfl
example : result_consumer [2, 3, 1] = ⟨[], 4, [1, 2, 3]⟩ := by rfl

/-! ## C1: order-preserving externalization -/

/-- The drain loop preserves the consumer invariant: the emitted prefix is
exactly the indices `1 .. next-1`, the emitted-plus-buffered multiset is
unchanged, and on exit the cursor index is not buffered. -/
theorem drainLoop_inv (fuel : Nat) :
    ∀ s : ConsumerState, s.buffer.length ≤ fuel →
      s.out = List.range' 1 (s.next - 1) → 1 ≤ s.next → s.buffer.Nodup →
      (drainLoop fuel s).out = List.range' 1 ((drainLoop fuel s).next - 1) ∧
      1 ≤ (drainLoop fuel s).next ∧
      ((drainLoop fuel s).out ++ (drainLoop fuel s).buffer).Perm (s.out ++ s.buffer) ∧
      (drainLoop fuel s).next ∉ (drainLoop fuel s).buffer ∧
      (drainLoop fuel s).buffer.Nodup := by
  induction fuel with
  | zero =>
    intro s hlen hout hnext hnd
    have hb : s.buffer = [] := List.eq_nil_of_length_eq_zero (Nat.le_zero.mp hlen)
    refine ⟨hout, hnext, List.Perm.refl _, ?_, hnd⟩
    simp [drainLoop, hb]
  | succ fuel ih =>
    intro s hlen hout hnext hnd
    by_cases hmem : s.next ∈ s.buffer
    · have hstep : drainLoop (fuel + 1) s
        = drainLoop fuel ⟨s.buffer.erase s.next, s.next + 1, s.out ++ [s.next]⟩ := by
        simp [drainLoop, hmem]
      have hpos : 0 < s.buffer.length := List.length_pos_of_mem hmem
      have herase : (s.buffer.erase s.next).length = s.buffer.length - 1 :=
        List.length_erase_of_mem hmem
      have hlen2 : (s.buffer.erase s.next).length ≤ fuel := by omega
      have hout2 : s.out ++ [s.next] = List.range' 1 (s.next + 1 - 1) := by
        have hk : s.next + 1 - 1 = s.next - 1 + 1 := by omega
        rw [hout, hk, List.range'_concat]
        have hv : 1 + 1 * (s.next - 1) = s.next := by omega
        rw [hv]
      have hnd2 : (s.buffer.erase s.next).Nodup := hnd.erase s.next
      have hres := ih ⟨s.buffer.erase s.next, s.next + 1, s.out ++ [s.next]⟩
        hlen2 hout2 (Nat.le_add_left 1 s.next) hnd2
      rw [hstep]
      refine ⟨hres.1, hres.2.1, ?_, hres.2.2.2.1, hres.2.2.2.2⟩
      refine hres.2.2.1.trans ?_
      show ((s.out ++ [s.next]) ++ s.buffer.erase s.next).Perm (s.out ++ s.buffer)
      rw [List.append_assoc, List.singleton_append]
      exact List.Perm.append_left s.out (List.perm_cons_erase hmem).symm
    · have hstep : drainLoop (fuel + 1) s = s := by simp [drainLoop, hmem]
      rw [hstep]
      exact ⟨hout, hnext, List.Perm.refl _, hmem, hnd⟩

/-- Folding the consumer over the remaining arrival sequence preserves the
invariant, with `A` the arrivals already processed. -/
theorem consume_fold_inv :
    ∀ (rest : List Nat) (s : ConsumerState) (A : List Nat),
      (A ++ rest).Nodup →
      s.out = List.range' 1 (s.next - 1) → 1 ≤ s.next →
      (s.out ++ s.buffer).Perm A → s.next ∉ s.buffer →
      (rest.foldl consume_arrival s).out
        = List.range' 1 ((rest.foldl consume_arrival s).next - 1) ∧
      1 ≤ (rest.foldl consume_arrival s).next ∧
      ((rest.foldl consume_arrival s).out
        ++ (rest.foldl consume_arrival s).buffer).Perm (A ++ rest) ∧
      (rest.foldl consume_arrival s).next ∉ (rest.foldl consume_arrival s).buffer := by
  intro rest
  induction rest with
  | nil =>
    intro s A hnd hout hnext hperm hnmem
    exact ⟨hout, hnext, by simpa using hperm, hnmem⟩
  | cons a rest ih =>
    intro s A hnd hout hnext hperm hnmem
    obtain ⟨hAnd, hrestnd, hdisj⟩ := List.nodup_append.mp hnd
    have haA : a ∉ A := fun haIn => hdisj haIn (List.mem_cons_self a rest)
    have hOBnd : (s.out ++ s.buffer).Nodup := hperm.nodup_iff.mpr hAnd
    have hbnd : s.buffer.Nodup := (List.nodup_append.mp hOBnd).2.1
    have hab : a ∉ s.buffer := by
      intro hin
      exact haA (hperm.mem_iff.mp (List.mem_append.mpr (Or.inr hin)))
    have hd := drainLoop_inv (a :: s.buffer).length ⟨a :: s.buffer, s.next, s.out⟩
      (Nat.le_refl _) hout hnext (List.nodup_cons.mpr ⟨hab, hbnd⟩)
    have hca : rest.foldl consume_arrival (consume_arrival s a)
        = (a :: rest).foldl consume_arrival s := by simp [List.foldl_cons]
    have hpermStep :
        ((consume_arrival s a).out ++ (consume_arrival s a).buffer).Perm (A ++ [a]) := by
      refine hd.2.2.1.trans ?_
      show (s.out ++ a :: s.buffer).Perm (A ++ [a])
      refine List.perm_middle.trans ?_
      exact (hperm.cons a).trans (List.perm_append_singleton a A).symm
    have hnd2 : ((A ++ [a]) ++ rest).Nodup := by
      rw [List.append_assoc, List.singleton_append]
      exact hnd
    have hres := ih (consume_arrival s a) (A ++ [a]) hnd2 hd.1 hd.2.1 hpermStep hd.2.2.2.1
    rw [hca] at hres
    refine ⟨hres.1, hres.2.1, ?_, hres.2.2.2⟩
    refine hres.2.2.1.trans ?_
    rw [List.append_assoc, List.singleton_append]

/-- C1: For every run with cases indexed 1..n and every order in which the
concurrent workers deposit their (index, payload) tuples into the result
queue, the consumer of `run_evaluation_with_ws` persists and broadcasts the
results strictly in ascending index order 1..n (and drains its whole
buffer), never in completion order: the externalized index sequence equals
`List.range' 1 n` for every arrival permutation. -/
theorem run_ws_externalizes_in_index_order (n : Nat) (arrivals : List Nat)
    (h : arrivals.Perm (List.range' 1 n)) :
    (result_consumer arrivals).out = List.range' 1 n ∧
    (result_consumer arrivals).buffer = [] := by
  have hnd : arrivals.Nodup := h.nodup_iff.mpr (List.nodup_range' 1 n)
  have base := consume_fold_inv arrivals ⟨[], 1, []⟩ []
    (by simpa using hnd) (by simp) (Nat.le_refl 1) (List.Perm.refl _) (by simp)
  obtain ⟨hout, hnext, hperm, hnmem⟩ := base
  have hperm2 : ((result_consumer arrivals).out
      ++ (result_consumer arrivals).buffer).Perm (List.range' 1 n) := by
    have h0 : ((result_consumer arrivals).out
        ++ (result_consumer arrivals).buffer).Perm arrivals := by
      simpa [result_consumer] using hperm
    exact h0.trans h
  have hout2 : (result_consumer arrivals).out
      = List.range' 1 ((result_consumer arrivals).next - 1) := hout
  have hgt : n < (result_consumer arrivals).next := by
    by_contra hle
    push_neg at hle
    have hmemr : (result_consumer arrivals).next ∈ List.range' 1 n :=
      List.mem_range'_1.mpr ⟨hnext, by omega⟩
    have h2 := hperm2.mem_iff.mpr hmemr
    rcases List.mem_append.mp h2 with h3 | h3
    · rw [hout2] at h3
      have := List.mem_range'_1.mp h3
      omega
    · exact hnmem h3
  have hlen : (result_consumer arrivals).out.length
      + (result_consumer arrivals).buffer.length = n := by
    have := hperm2.length_eq
    simpa [List.length_append, List.length_range'] using this
  have houtlen : (result_consumer arrivals).out.length
      = (result_consumer arrivals).next - 1 := by
    rw [hout2]; simp [List.length_range']
  have hbl : (result_consumer arrivals).buffer.length = 0 := by omega
  have hn : (result_consumer arrivals).next - 1 = n := by omega
  exact ⟨by rw [hout2, hn], List.eq_nil_of_length_eq_zero hbl⟩

/-- Witness for C1 at n = 3 with the reversed completion order 3, 2, 1. -/
theorem run_ws_externalizes_in_index_order_witness :
    ([3, 2, 1] : List Nat).Perm (List.range' 1 3) ∧
    (result_consumer [3, 2, 1]).out = List.range' 1 3 :=
  ⟨by decide, (run_ws_externalizes_in_index_order 3 [3, 2, 1] (by decide)).1⟩

/-! ## C2: summary count conservation -/

/-- Counter fold of the websocket consumer with explicit accumulator: each
externalized case increments exactly one counter. -/
theorem ws_counters_fold (outcomes : List Bool) :
    ∀ p f : Nat,
      (outcomes.foldl
        (fun pf b => if b then (pf.1 + 1, pf.2) else (pf.1, pf.2 + 1)) (p, f)).1
        + (outcomes.foldl
        (fun pf b => if b then (pf.1 + 1, pf.2) else (pf.1, pf.2 + 1)) (p, f)).2
        = p + f + outcomes.length := by
  induction outcomes with
  | nil => intro p f; simp
  | cons b rest ih =>
    intro p f
    cases b with
    | true => simpa [List.foldl_cons] using by rw [ih (p + 1) f]; omega
    | false => simpa [List.foldl_cons] using by rw [ih p (f + 1)]; omega

/-- On the `run_evaluation_with_ws` path the counters conserve the case
count: `passed + failed = total`. -/
theorem ws_counters_conserve (outcomes : List Bool) :
    (ws_run_counters outcomes).1 + (ws_run_counters outcomes).2 = outcomes.length := by
  have := ws_counters_fold outcomes 0 0
  simpa [ws_run_counters] using this

/-- C2: The claim fails on the sequential `_run_evaluation` (SSE) path: a
single case whose LLM call fails is counted in `failed` twice (lines 831
and 863 of `app/services/eval_service.py`), so the persisted summary is
`total = 1, passed = 0, failed = 2` with `passed + failed ≠ total` — the
code contradicts the intended (and elsewhere implemented) count
conservation. -/
theorem sse_path_double_counts_failed_case :
    sse_summary [(none, "expected")] = (1, 0, 2) ∧ 0 + 2 ≠ 1 :=
  ⟨by rfl, by decide⟩

/-! ## C3 / C5: the per-case worker -/

/-- Rendering an object-shaped template always succeeds and yields the
substituted object (shape preservation makes the post-substitution dict
check pass). -/
theorem render_obj_ok (fields : List (String × Json)) (context : Json) :
    render_request_template (Json.obj fields) context
      = .ok (Json.obj (substFieldsTR context fields)) := by
  simp [render_request_template, substitute_in_value, Json.isObj]

/-- C3 counterexample: an exception raised while rendering the template is
NOT caught by the per-case worker — with a non-dict template the worker
propagates the `ValueError` instead of depositing a result with
`execution_error` set (only the LLM call sits inside the `try`). -/
theorem worker_render_exception_propagates :
    evaluate_single_case (Json.arr []) (Json.obj []) (some "e") (.ok (some "out"))
      = .error "Template must be a dictionary" := by rfl

/-- C3 (amended): only exceptions from the LLM call are caught by the
per-case worker.  Whenever the template renders (any dict template), the
worker completes and deposits a result for every LLM outcome, and an
LLM-call exception is recorded as that case's `execution_error` with
`is_passed = false` and empty logs; it never propagates. -/
theorem worker_catches_llm_exceptions (fields : List (String × Json))
    (context : Json) (expectedOutput : Option String) :
    (∀ llmOutcome, ∃ r,
      evaluate_single_case (Json.obj fields) context expectedOutput llmOutcome = .ok r) ∧
    (∀ msg, evaluate_single_case (Json.obj fields) context expectedOutput (.error msg)
      = .ok ⟨none, false, some msg, []⟩) := by
  constructor
  · intro llmOutcome
    cases llmOutcome with
    | ok r =>
      cases r with
      | none =>
        exact ⟨⟨none, false, none, []⟩, by simp [evaluate_single_case, render_obj_ok]⟩
      | some out =>
        exact ⟨⟨some out, (exact_match_evaluate (expectedOutput.getD "") out).1, none,
          [Json.str (exact_match_evaluate (expectedOutput.getD "") out).2]⟩,
          by simp [evaluate_single_case, render_obj_ok]⟩
    | error msg =>
      exact ⟨⟨none, false, some msg, []⟩, by simp [evaluate_single_case, render_obj_ok]⟩
  · intro msg
    simp [evaluate_single_case, render_obj_ok]

/-- C5 counterexample: for a case whose LLM call succeeded, the stored
`evaluator_logs` entry is the evaluator's reason STRING (here
`"Exact match"`), not a structured `{evaluator_name, passed, reason}`
object. -/
theorem evaluator_log_entry_not_structured :
    evaluate_single_case (Json.obj [("model", Json.str "m")]) (Json.obj [])
      (some "hello") (.ok (some "hello"))
      = .ok ⟨some "hello", true, none, [Json.str "Exact match"]⟩ ∧
    (Json.str "Exact match").isObj = false :=
  ⟨by rfl, by rfl⟩

/-- C5 (amended): `evaluator_logs` is an ordered list with one entry per
evaluator applied — the single hard-coded exact-match evaluator — but each
entry is that evaluator's reason string; for a case whose LLM call failed
(output `None`, by exception or by a swallowed HTTP failure),
`evaluator_logs = []` and `is_passed = false`. -/
theorem evaluator_logs_one_reason_string_per_evaluator
    (fields : List (String × Json)) (context : Json)
    (expectedOutput : Option String) (out msg : String) :
    evaluate_single_case (Json.obj fields) context expectedOutput (.ok (some out))
      = .ok ⟨some out, (exact_match_evaluate (expectedOutput.getD "") out).1, none,
          [Json.str (exact_match_evaluate (expectedOutput.getD "") out).2]⟩ ∧
    evaluate_single_case (Json.obj fields) context expectedOutput (.ok none)
      = .ok ⟨none, false, none, []⟩ ∧
    evaluate_single_case (Json.obj fields) context expectedOutput (.error msg)
      = .ok ⟨none, false, some msg, []⟩ := by
  refine ⟨?_, ?_, ?_⟩ <;> simp [evaluate_single_case, render_obj_ok]

/-! ## C4: the concurrency clamp -/

/-- C4: For every configured concurrency value c (with missing/`None` and
the falsy `0` treated as 1 by `getattr(...) or 1`) and every non-empty case
count T, the semaphore is sized to exactly `max(1, min(c, T))`; hence the
size is at least 1 and at most T. -/
theorem concurrency_gate_clamped (c : Int) (T : Nat) (hT : 1 ≤ T) :
    effective_concurrency (some c) T = max 1 (min c (T : Int)) ∧
    effective_concurrency none T = 1 ∧
    1 ≤ effective_concurrency (some c) T ∧
    effective_concurrency (some c) T ≤ (T : Int) := by
  have hT1 : (1 : Int) ≤ (T : Int) := by exact_mod_cast hT
  unfold effective_concurrency
  refine ⟨?_, ?_, ?_, ?_⟩ <;> simp only [min_def, max_def] <;> split_ifs <;> omega

/-- Witness for C4 at the spec's example: concurrency 10 with 2 cases
clamps to 2; a missing value gives 1. -/
theorem concurrency_gate_clamped_witness :
    1 ≤ 2 ∧ effective_concurrency (some 10) 2 = max 1 (min 10 (2 : Int)) ∧
    effective_concurrency none 2 = 1 :=
  ⟨by decide, (concurrency_gate_clamped 10 2 (by decide)).1,
    (concurrency_gate_clamped 10 2 (by decide)).2.1⟩

/-! ## C6: json_compare is permissive about non-JSON expected values -/

/-- C6: Whenever `expected` does not parse as JSON (the empty string
included), `JsonCompareEvaluator.evaluate` returns a pass verdict whatever
`actual` is; contrapositively a fail verdict requires valid-JSON
`expected`. -/
theorem json_compare_passes_on_invalid_expected (expected actual : String)
    (h : json_loads expected = none) :
    (json_compare_evaluate expected actual).1 = true := by
  unfold json_compare_evaluate
  by_cases he : expected = ""
  · simp [he]
  · simp [he, h]

/-- Witness for C6 at a non-JSON expected value. -/
theorem json_compare_passes_on_invalid_expected_witness :
    json_loads "not json" = none ∧
    (json_compare_evaluate "not json" "\x7b\"a\":1\x7d").1 = true :=
  ⟨by rfl, json_compare_passes_on_invalid_expected "not json" "\x7b\"a\":1\x7d" (by rfl)⟩

/-! ## C7: repair of already-valid JSON -/

/-- C7 counterexample: a valid JSON string containing markdown fences is
mutated — the fence extraction runs BEFORE the validity check, so
`repair` on the valid JSON string `"```a```"` (a quoted string of
backticks and `a`) extracts `a`, can not repair it, and returns `None`
instead of the input. -/
theorem repair_mutates_valid_json_with_fences :
    (json_loads "\"\x60\x60\x60a\x60\x60\x60\"").isSome = true ∧
    JsonRepair.repair "\"\x60\x60\x60a\x60\x60\x60\"" = none :=
  ⟨by rfl, by rfl⟩

/-- C7 (amended): for every valid JSON string in which the markdown-fence
extraction finds nothing to extract (in particular any valid JSON with no
``` fence), `JsonRepair.repair` returns the string unchanged. -/
theorem repair_identity_on_valid_fenceless (x : String) (j : Json)
    (hv : json_loads x = some j)
    (hf : JsonRepair.extract_json_from_markdown x = x) :
    JsonRepair.repair x = some x := by
  have hx : ¬ x = "" := by
    intro h
    have h0 : json_loads "" = none := by rfl
    rw [h, h0] at hv
    exact Option.noConfusion hv
  have hvalid : JsonRepair.is_valid_json x = true := by
    unfold JsonRepair.is_valid_json
    rw [if_neg hx, hv]
    rfl
  unfold JsonRepair.repair
  rw [if_neg hx, hf]
  simp [hvalid]

/-- Witness for C7 on a representative already-valid input. -/
theorem repair_identity_on_valid_fenceless_witness :
    json_loads "\x7b\"a\":1\x7d" = some (Json.obj [("a", Json.num false 1 0)]) ∧
    JsonRepair.extract_json_from_markdown "\x7b\"a\":1\x7d" = "\x7b\"a\":1\x7d" ∧
    JsonRepair.repair "\x7b\"a\":1\x7d" = some "\x7b\"a\":1\x7d" :=
  ⟨by rfl, by rfl,
    repair_identity_on_valid_fenceless "\x7b\"a\":1\x7d" (Json.obj [("a", Json.num false 1 0)])
      (by rfl) (by rfl)⟩

/-! ## C8: template rendering totality and empty-string resolution -/

/-- C8 counterexample: the special-cased top-level `model_name` placeholder
does NOT resolve a null value to the empty string — it goes through
`str(context.get("model_name", ""))`, so a null renders as `"None"`. -/
theorem model_name_null_renders_text_None :
    resolve_variable "model_name" (Json.obj [("model_name", Json.null)]) = "None" ∧
    substituteString (Json.obj [("model_name", Json.null)]) "$\x7bmodel_name\x7d" = "None" ∧
    "None" ≠ "" :=
  ⟨by rfl, by rfl, by decide⟩

/-- C8 (amended): rendering a dict-top-level template never raises — it
always returns the substituted dict — and path navigation (every
placeholder except the special-cased `model_name`) resolves a missing key,
a null value at any step, and a non-dict (attribute-less) intermediate
value to the empty string. -/
theorem templater_total_and_missing_resolves_empty
    (context : Json) (fields : List (String × Json))
    (p : String) (ps : List String) (cfs : List (String × Json)) (v : Json) :
    render_request_template (Json.obj fields) context
      = .ok (Json.obj (substFieldsTR context fields)) ∧
    (lookupField cfs p = none → resolve_navigate (p :: ps) (Json.obj cfs) = "") ∧
    (lookupField cfs p = some Json.null → resolve_navigate (p :: ps) (Json.obj cfs) = "") ∧
    (v.isObj = false → resolve_navigate (p :: ps) v = "") := by
  refine ⟨render_obj_ok fields context, ?_, ?_, ?_⟩
  · intro h
    simp [resolve_navigate, h]
  · intro h
    simp [resolve_navigate, h]
  · intro h
    cases v <;> simp_all [resolve_navigate, Json.isObj]

/-- Witness for C8 (amended) on a concrete template, missing key, null
value and non-dict step. -/
theorem templater_total_and_missing_resolves_empty_witness :
    render_request_template (Json.obj [("model", Json.str "$\x7bcase.user_input\x7d")])
        (Json.obj [])
      = .ok (Json.obj (substFieldsTR (Json.obj [])
          [("model", Json.str "$\x7bcase.user_input\x7d")])) ∧
    resolve_navigate ["missing"] (Json.obj [("k", Json.num false 1 0)]) = "" ∧
    resolve_navigate ["k"] (Json.obj [("k", Json.null)]) = "" ∧
    resolve_navigate ["k"] (Json.str "leaf") = "" :=
  ⟨(templater_total_and_missing_resolves_empty (Json.obj [])
      [("model", Json.str "$\x7bcase.user_input\x7d")] "missing" []
      [("k", Json.num false 1 0)] Json.null).1,
    (templater_total_and_missing_resolves_empty (Json.obj [])
      [("model", Json.str "$\x7bcase.user_input\x7d")] "missing" []
      [("k", Json.num false 1 0)] Json.null).2.1 (by rfl),
    (templater_total_and_missing_resolves_empty (Json.obj [])
      [("model", Json.str "$\x7bcase.user_input\x7d")] "k" []
      [("k", Json.null)] Json.null).2.2.1 (by rfl),
    (templater_total_and_missing_resolves_empty (Json.obj [])
      [("model", Json.str "$\x7bcase.user_input\x7d")] "k" []
      [("k", Json.null)] (Json.str "leaf")).2.2.2 (by rfl)⟩

/-! ## C9: 200-response content extraction -/

/-- C9 counterexample: a 200 body with a non-empty `choices` whose first
message has no (truthy) `content` makes the extraction fall through the
whole `if`/`elif`/`else` chain — the call returns `None` even though a
top-level `output` field is present, refuting both the fallback order and
the non-null guarantee. -/
theorem llm_200_falls_through_to_none :
    llm_200_content (Json.obj [("choices", Json.arr [Json.obj [("message", Json.obj [])]]),
      ("output", Json.str "hi")]) = none := by rfl

/-- C9 (amended): only when `choices` is absent or falsy (e.g. `None` or
an empty list) does a 200 dict body always yield a non-null content, taken
from the `output`/`response`/`text`/`content`/`message`/stringify chain;
with a non-empty `choices`, content comes exclusively from
`choices[0].message.content` and the call yields `None` when that is
missing or falsy. -/
theorem llm_200_content_total_without_choices (fields : List (String × Json))
    (h : ∀ v, lookupField fields "choices" = some v → pyTruthy v = false) :
    llm_200_content (Json.obj fields) = some (llm_elif_chain (Json.obj fields)) := by
  unfold llm_200_content llm_extract_content
  cases hc : lookupField fields "choices" with
  | none => simp [pyGet, hc]
  | some v =>
    have hv := h v hc
    cases v with
    | arr xs =>
      cases xs with
      | nil => simp [pyGet, hc, hv]
      | cons c0 rest => simp [pyTruthy] at hv
    | null => simp [pyGet, hc, hv]
    | bool b => simp [pyGet, hc, hv]
    | num f m e => simp [pyGet, hc, hv]
    | str s => simp [pyGet, hc, hv]
    | obj fs => simp [pyGet, hc, hv]
    | nan => simp [pyTruthy] at hv
    | inf neg => simp [pyTruthy] at hv

/-- Witness for C9 (amended) at a body holding only `output`. -/
theorem llm_200_content_total_without_choices_witness :
    llm_200_content (Json.obj [("output", Json.str "hi")])
      = some (llm_elif_chain (Json.obj [("output", Json.str "hi")])) ∧
    llm_elif_chain (Json.obj [("output", Json.str "hi")]) = "hi" :=
  ⟨llm_200_content_total_without_choices [("output", Json.str "hi")]
      (fun v hv => by simp [lookupField] at hv),
    by rfl⟩

/-! ## C10: exact-match raw emptiness checks -/

/-- C10: `ExactMatchEvaluator.evaluate` tests raw-string emptiness before
whitespace normalization: when exactly one side is the empty string the
verdict is a fail naming the empty side — in particular a
whitespace-only `expected` with an empty `actual` fails, although both
normalize to the same empty string. -/
theorem exact_match_checks_raw_emptiness (expected actual : String) :
    (expected = "" → actual ≠ "" → exact_match_evaluate expected actual
      = (false, "Expected output is empty")) ∧
    (expected ≠ "" → actual = "" → exact_match_evaluate expected actual
      = (false, "Actual output is empty")) := by
  constructor
  · intro he ha
    simp [exact_match_evaluate, he, ha]
  · intro he ha
    simp [exact_match_evaluate, he, ha]

/-- Witness for C10, including the whitespace-only case from the claim:
`expected = " "` and `actual = ""` fail naming the actual side even though
both normalize to `""`. -/
theorem exact_match_checks_raw_emptiness_witness :
    exact_match_evaluate " " "" = (false, "Actual output is empty") ∧
    exact_match_evaluate "" "x" = (false, "Expected output is empty") ∧
    normalizeWs " " = normalizeWs "" :=
  ⟨(exact_match_checks_raw_emptiness " " "").2 (by decide) rfl,
    (exact_match_checks_raw_emptiness "" "x").1 rfl (by decide),
    by rfl⟩
